import Mathlib

/-!
Verification of the frame-resource pipelining and constant-data
synchronization subsystem of `Week4-6-ShapeComplete.cpp` (ShapesApp).

The source's matrix math (DirectXMath) performs no arithmetic the claims
depend on: the only store-order operation applied to a per-object world
matrix before it is copied into a constant buffer is `XMMatrixTranspose`.
World matrices are therefore embedded symbolically as expression trees,
with `transpose` as a constructor; equality of expressions is decidable
and exact.
-/

/-- Symbolic 4x4 matrix expressions, covering exactly the DirectXMath
constructors used by `ShapesApp` (`MathHelper::Identity4x4`,
`XMMatrixTranslation`, `XMMatrixScaling`, `XMMatrixRotationY`, matrix
multiplication, `XMMatrixTranspose`). Scalar literals are carried as
rationals. -/
inductive Mat4Expr : Type where
  | identity4x4 : Mat4Expr
  | translation (x y z : Rat) : Mat4Expr
  | scaling (x y z : Rat) : Mat4Expr
  | rotationY (angle : Rat) : Mat4Expr
  | mul (a b : Mat4Expr) : Mat4Expr
  | transpose (a : Mat4Expr) : Mat4Expr
deriving DecidableEq

/-- The number of in-flight frame resources: `const int gNumFrameResources = 3`. -/
def gNumFrameResources : Nat := 3

/-- Modelled from the spec: the per-object constant record (file
`FrameResource.h` is not under `src/`). The spec's Constant Buffer Arena
holds "one fixed-size record per logical entity (object transform)"; the
record stores the (transposed) world matrix. -/
structure ObjectConstants where
  World : Mat4Expr
deriving DecidableEq

/-- Modelled from the spec: the per-pass record (file `FrameResource.h` is
not under `src/`). Per spec section 6, the camera/input layer "supplies the
per-frame pass record ... the core only stores and republishes it", so the
record is treated as an opaque bundle of view/projection data. -/
structure PassConstants where
  View : Mat4Expr
  Proj : Mat4Expr
deriving DecidableEq

/-- Modelled from the spec: the Constant Buffer Arena
(`UploadBuffer<T>` of `Common/UploadBuffer.h`, not under `src/`).
Per spec section 4.2: `write(index, record)` copies a fixed-size record
into position `index` of a CPU-visible region; `index` must be
`< capacity` (capacity fixed at construction); out-of-range is a
programmer error that fails fast. The fail-fast abort is modelled as the
absorbing `failed` flag. -/
structure UploadBuffer (α : Type) where
  capacity : Nat
  store : Nat → Option α
  failed : Bool

/-- Modelled from the spec: `write(index, record)` of the Constant Buffer
Arena (`UploadBuffer<T>::CopyData`, not under `src/`): an in-capacity write
stores the record at `index`; an out-of-range index is a fail-fast
programmer error, recorded by the `failed` flag. -/
def UploadBuffer.CopyData {α : Type} (a : UploadBuffer α) (index : Nat) (record : α) :
    UploadBuffer α :=
  if index < a.capacity then
    { a with store := Function.update a.store index (some record) }
  else
    { a with failed := true }

/-- A scene render item (`struct RenderItem`, lines 31-58): a world
matrix, the dirty counter initialised to `gNumFrameResources`, the stable
index into the per-frame object constant buffer, and the name of the
geometry draw-args entry the item draws with (the geometry cache itself is
an external collaborator). -/
structure RenderItem where
  World : Mat4Expr
  NumFramesDirty : Int
  ObjCBIndex : Nat
  geoDrawArg : String
deriving DecidableEq

instance : Inhabited RenderItem :=
  ⟨{ World := Mat4Expr.identity4x4
     NumFramesDirty := (gNumFrameResources : Int)
     ObjCBIndex := 4294967295
     geoDrawArg := "" }⟩

/-- One frame resource (constructed in `BuildFrameResources`, lines
803-810, as `FrameResource(device, 1, mAllRitems.size())`): an object
constant arena, a single-record pass constant arena, and the fence value
(`Fence`, 0 until first submitted). -/
structure FrameResource where
  ObjectCB : UploadBuffer ObjectConstants
  PassCB : UploadBuffer PassConstants
  Fence : Nat

/-- The producer-side state of `ShapesApp` that the claims concern:
the three frame resources, the active frame-resource index
(`mCurrFrameResourceIndex`, cycled mod `gNumFrameResources`), the render
item registry `mAllRitems`, and the fence counter `mCurrentFence`. -/
structure AppState where
  mFrameResources : Fin 3 → FrameResource
  mCurrFrameResourceIndex : Fin 3
  mAllRitems : List RenderItem
  mCurrentFence : Nat

/-- The record `UpdateObjectCBs` stores for a dirty item (lines 375-378):
`XMStoreFloat4x4(&objConstants.World, XMMatrixTranspose(world))`. -/
def objRecord (e : RenderItem) : ObjectConstants :=
  { World := Mat4Expr.transpose e.World }

/-- `ShapesApp::UpdateObjectCBs` (lines 366-386): iterate `mAllRitems`; for
each item with `NumFramesDirty > 0`, copy the transposed world matrix into
the current frame resource's object constant buffer at `ObjCBIndex` and
decrement `NumFramesDirty`; items with `NumFramesDirty <= 0` are skipped.
Returns the updated item list and the updated object arena. -/
def updateObjectCBs : List RenderItem → UploadBuffer ObjectConstants →
    List RenderItem × UploadBuffer ObjectConstants
  | [], cb => ([], cb)
  | e :: rest, cb =>
    if 0 < e.NumFramesDirty then
      let cb' := cb.CopyData e.ObjCBIndex (objRecord e)
      let r := updateObjectCBs rest cb'
      ({ e with NumFramesDirty := e.NumFramesDirty - 1 } :: r.1, r.2)
    else
      let r := updateObjectCBs rest cb
      (e :: r.1, r.2)

/-- The effect of one `UpdateObjectCBs` pass on a single item: decrement
`NumFramesDirty` when positive, leave the item unchanged otherwise
(lines 373-384). -/
def dirtyStep (e : RenderItem) : RenderItem :=
  if 0 < e.NumFramesDirty then { e with NumFramesDirty := e.NumFramesDirty - 1 } else e

/-- The arena effect of one `UpdateObjectCBs` visit to a single item:
write the transposed world at `ObjCBIndex` when dirty, else no write. -/
def writeDirty (cb : UploadBuffer ObjectConstants) (e : RenderItem) :
    UploadBuffer ObjectConstants :=
  if 0 < e.NumFramesDirty then cb.CopyData e.ObjCBIndex (objRecord e) else cb

/-- The body of `ShapesApp::Update` (lines 205-226) after the fence wait
has resolved: advance `mCurrFrameResourceIndex` by one modulo
`gNumFrameResources` (line 211), then run `UpdateObjectCBs` on the newly
selected frame resource's object arena and `UpdateMainPassCB` (which
stores the externally supplied pass record at index 0 of the pass arena,
line 413: `currPassCB->CopyData(0, mMainPassCB)`). The wait itself changes
no producer state. -/
def produceFrame (st : AppState) (pass : PassConstants) : AppState :=
  let idx : Fin 3 := st.mCurrFrameResourceIndex + 1
  let fr := st.mFrameResources idx
  let r := updateObjectCBs st.mAllRitems fr.ObjectCB
  { st with
    mCurrFrameResourceIndex := idx
    mAllRitems := r.1
    mFrameResources := Function.update st.mFrameResources idx
      { fr with ObjectCB := r.2, PassCB := fr.PassCB.CopyData 0 pass } }

/-- The wait condition of `ShapesApp::Update` (line 216): the producer
blocks on the fence event exactly when the newly selected frame resource's
`Fence` is nonzero and `mFence->GetCompletedValue()` (the GPU's reported
highest completed fence value, supplied here as `gpuCompleted`) is still
below it. -/
def updateWaits (st : AppState) (gpuCompleted : Nat) : Bool :=
  let fr := st.mFrameResources (st.mCurrFrameResourceIndex + 1)
  fr.Fence != 0 && gpuCompleted < fr.Fence

/-- `ShapesApp::Update` as observed against a fixed reported completed
fence value: `none` means the call blocks on the fence event at this
observation; otherwise it proceeds directly to write the selected slot's
arenas. -/
def update (st : AppState) (gpuCompleted : Nat) (pass : PassConstants) :
    Option AppState :=
  if updateWaits st gpuCompleted then none else some (produceFrame st pass)

/-- The fence-stamping tail of `ShapesApp::Draw` (lines 288-294): stamp the
current frame resource with `++mCurrentFence` and signal the queue. -/
def drawStep (st : AppState) : AppState :=
  let idx := st.mCurrFrameResourceIndex
  let fr := st.mFrameResources idx
  let newFence := st.mCurrentFence + 1
  { st with
    mCurrentFence := newFence
    mFrameResources := Function.update st.mFrameResources idx { fr with Fence := newFence } }

/-- Mutating a render item's world matrix, per the `NumFramesDirty` doc
comment (lines 40-44): "when we modify obect data we should set
NumFramesDirty = gNumFrameResources so that each frame resource gets the
update". The dirty counter is set (not incremented) to `gNumFrameResources`. -/
def setWorldDirty (e : RenderItem) (w : Mat4Expr) : RenderItem :=
  { e with World := w, NumFramesDirty := (gNumFrameResources : Int) }

/-- Replace the world matrix of the item at position `i` (no-op when `i`
is out of range), marking it dirty for all frame resources. -/
def mutateItems : List RenderItem → Nat → Mat4Expr → List RenderItem
  | [], _, _ => []
  | e :: rest, 0, w => setWorldDirty e w :: rest
  | e :: rest, n + 1, w => e :: mutateItems rest n w

/-- Transform mutation on the app state: item `i`'s `World` becomes `w`
and its `NumFramesDirty` is reset to `gNumFrameResources`. -/
def mutateWorld (st : AppState) (i : Nat) (w : Mat4Expr) : AppState :=
  { st with mAllRitems := mutateItems st.mAllRitems i w }

/-! ## Descriptor addressing scheme -/

/-- `BuildDescriptorHeaps` (line 425): `mPassCbvOffset = objCount * gNumFrameResources`. -/
def mPassCbvOffset (objCount : Nat) : Nat := objCount * gNumFrameResources

/-- Publish-time object descriptor offset, `BuildConstantBufferViews`
(line 454): `int heapIndex = frameIndex * objCount + i`. -/
def publishObjHeapIndex (objCount frameIndex i : Nat) : Nat :=
  frameIndex * objCount + i

/-- Publish-time pass descriptor offset, `BuildConstantBufferViews`
(line 475): `int heapIndex = mPassCbvOffset + frameIndex`. -/
def publishPassHeapIndex (objCount frameIndex : Nat) : Nat :=
  mPassCbvOffset objCount + frameIndex

/-- Bind-time object descriptor offset, `DrawRenderItems` (line 1512):
`UINT cbvIndex = mCurrFrameResourceIndex * mOpaqueRitems.size() + ri->ObjCBIndex`. -/
def bindObjCbvIndex (currFrameResourceIndex opaqueCount objCBIndex : Nat) : Nat :=
  currFrameResourceIndex * opaqueCount + objCBIndex

/-- Bind-time pass descriptor offset, `Draw` (line 266):
`int passCbvIndex = mPassCbvOffset + mCurrFrameResourceIndex`. -/
def bindPassCbvIndex (passCbvOffsetVal currFrameResourceIndex : Nat) : Nat :=
  passCbvOffsetVal + currFrameResourceIndex

/-- A descriptor-heap record kind: an object record for a given item slot,
or the per-frame pass record. -/
inductive CbKind : Type where
  | obj (slot : Nat) : CbKind
  | pass : CbKind
deriving DecidableEq

/-- The complete descriptor addressing function of the program:
`(frame, kind, slot) -> linear descriptor-heap index`. -/
def heapOffset (objCount frameIndex : Nat) : CbKind → Nat
  | CbKind.obj slot => publishObjHeapIndex objCount frameIndex slot
  | CbKind.pass => publishPassHeapIndex objCount frameIndex

/-- Validity of a `(frame, kind)` pair: the frame index is below
`gNumFrameResources` and an object slot is below the item count. -/
def validAddr (objCount frameIndex : Nat) : CbKind → Prop
  | CbKind.obj slot => frameIndex < gNumFrameResources ∧ slot < objCount
  | CbKind.pass => frameIndex < gNumFrameResources

instance (objCount frameIndex : Nat) (k : CbKind) :
    Decidable (validAddr objCount frameIndex k) := by
  cases k <;> simp [validAddr] <;> infer_instance

/-! ## Scene build (`BuildRenderItems`, lines 812-1495)

Each entry is the `World` expression and the `DrawArgs` geometry name of
one render item, in the exact registration (`push_back`) order of the
source; the C++ loops become `List.range` blocks. `ObjCBIndex` is
assigned by threading the `objCBIndex++` counter over this list. -/

/-- Worlds and geometry names of the castle towers, entrance, gate and
roof pieces (lines 816-1030), in registration order. -/
def itemSpecsA : List (Mat4Expr × String) :=
  [ (Mat4Expr.mul (Mat4Expr.translation 8 3 (-13)) (Mat4Expr.scaling 1 1 1), "cylinder")
  , (Mat4Expr.mul (Mat4Expr.translation (-8) 3 (-13)) (Mat4Expr.scaling 1 1 1), "cylinder")
  , (Mat4Expr.mul (Mat4Expr.translation (-8) 3 13) (Mat4Expr.scaling 1 1 1), "cylinder")
  , (Mat4Expr.mul (Mat4Expr.translation 8 3 13) (Mat4Expr.scaling 1 1 1), "cylinder")
  , (Mat4Expr.mul (Mat4Expr.translation 1.9 0.5 (-5.75)) (Mat4Expr.scaling 1.5 7 2.25), "prism")
  , (Mat4Expr.mul (Mat4Expr.mul (Mat4Expr.translation 1.9 0.5 5.75) (Mat4Expr.scaling 1.5 7 2.25)) (Mat4Expr.rotationY 3.1416), "prism")
  , (Mat4Expr.mul (Mat4Expr.translation 0 4 (-4.25)) (Mat4Expr.scaling 9 2 3), "box")
  , (Mat4Expr.mul (Mat4Expr.translation 0 10.5 (-8.5)) (Mat4Expr.scaling 4 1 1.5), "pyramid")
  , (Mat4Expr.mul (Mat4Expr.translation 8 7 (-13)) (Mat4Expr.scaling 1 1 1), "cone")
  , (Mat4Expr.mul (Mat4Expr.translation (-8) 7 (-13)) (Mat4Expr.scaling 1 1 1), "cone")
  , (Mat4Expr.mul (Mat4Expr.translation (-8) 7 13) (Mat4Expr.scaling 1 1 1), "cone")
  , (Mat4Expr.mul (Mat4Expr.translation 8 7 13) (Mat4Expr.scaling 1 1 1), "cone")
  , (Mat4Expr.mul (Mat4Expr.translation 8 10 (-13)) (Mat4Expr.scaling 1 1 1), "sphere")
  , (Mat4Expr.mul (Mat4Expr.translation (-8) 10 (-13)) (Mat4Expr.scaling 1 1 1), "sphere")
  , (Mat4Expr.mul (Mat4Expr.translation (-8) 10 13) (Mat4Expr.scaling 1 1 1), "sphere")
  , (Mat4Expr.mul (Mat4Expr.translation 8 10 13) (Mat4Expr.scaling 1 1 1), "sphere") ]

/-- Worlds of the castle walls with their crenellation loops
(lines 1020-1239), in registration order. -/
def itemSpecsB : List (Mat4Expr × String) :=
  [ (Mat4Expr.mul (Mat4Expr.translation (-4) 0.5 0) (Mat4Expr.scaling 2 4 28), "box") ]
  ++ (List.range 12).flatMap (fun i =>
    [ (Mat4Expr.translation (-8.5) 4.5 (-11 + (i : Rat) * 2), "wedge")
    , (Mat4Expr.mul (Mat4Expr.translation 8.5 4.5 (-12 + (i : Rat) * 2)) (Mat4Expr.rotationY 3.1416), "wedge") ])
  ++ [ (Mat4Expr.mul (Mat4Expr.translation 4 0.5 0) (Mat4Expr.scaling 2 4 28), "box") ]
  ++ (List.range 12).flatMap (fun i =>
    [ (Mat4Expr.translation 8.5 4.5 (-11 + (i : Rat) * 2), "wedge")
    , (Mat4Expr.mul (Mat4Expr.translation (-8.5) 4.5 (-12 + (i : Rat) * 2)) (Mat4Expr.rotationY 3.1416), "wedge") ])
  ++ [ (Mat4Expr.mul (Mat4Expr.translation 0 0.5 6.5) (Mat4Expr.scaling 14 4 2), "box") ]
  ++ (List.range 7).flatMap (fun i =>
    [ (Mat4Expr.mul (Mat4Expr.translation 13.5 4.5 (-5 + (i : Rat) * 2)) (Mat4Expr.rotationY (-3.1416 / 2)), "wedge")
    , (Mat4Expr.mul (Mat4Expr.translation (-13.5) 4.5 (6 - (i : Rat) * 2)) (Mat4Expr.rotationY (3.1416 / 2)), "wedge") ])
  ++ [ (Mat4Expr.mul (Mat4Expr.translation 0.95 0.5 (-6.5)) (Mat4Expr.scaling 5 4 2), "box")
     , (Mat4Expr.mul (Mat4Expr.translation (-0.95) 0.5 (-6.5)) (Mat4Expr.scaling 5 4 2), "box") ]
  ++ (List.range 3).flatMap (fun i =>
    [ (Mat4Expr.mul (Mat4Expr.translation (-13.5) 4.5 (-8 + (i : Rat) * 2)) (Mat4Expr.rotationY (-3.1416 / 2)), "wedge")
    , (Mat4Expr.mul (Mat4Expr.translation 13.5 4.5 (7 - (i : Rat) * 2)) (Mat4Expr.rotationY (3.1416 / 2)), "wedge") ])
  ++ (List.range 3).flatMap (fun i =>
    [ (Mat4Expr.mul (Mat4Expr.translation (-13.5) 4.5 (4 + (i : Rat) * 2)) (Mat4Expr.rotationY (-3.1416 / 2)), "wedge")
    , (Mat4Expr.mul (Mat4Expr.translation 13.5 4.5 (-3 - (i : Rat) * 2)) (Mat4Expr.rotationY (3.1416 / 2)), "wedge") ])

/-- Worlds of the stairs, garden, house, roof wedges and ground grid
(lines 1241-1490), in registration order. -/
def itemSpecsC : List (Mat4Expr × String) :=
  [ (Mat4Expr.mul (Mat4Expr.translation 0 0.5 (-14.5)) (Mat4Expr.scaling 4.5 0.5 1), "wedge")
  , (Mat4Expr.mul (Mat4Expr.mul (Mat4Expr.translation 0 0.5 11.5) (Mat4Expr.scaling 4.5 0.5 1)) (Mat4Expr.rotationY 3.1416), "wedge")
  , (Mat4Expr.mul (Mat4Expr.translation 0 0.5 (-6.5)) (Mat4Expr.scaling 4.5 0.5 2), "box") ]
  ++ (List.range 3).flatMap (fun i =>
    [ (Mat4Expr.mul (Mat4Expr.translation (-2) 0 (-5 + (i : Rat) * 2)) (Mat4Expr.scaling 2 (2 + (i : Rat)) 2), "sphere")
    , (Mat4Expr.mul (Mat4Expr.translation 2 0 (-5 + (i : Rat) * 2)) (Mat4Expr.scaling 2 (2 + (i : Rat)) 2), "sphere") ])
  ++ [ (Mat4Expr.mul (Mat4Expr.translation 0 0.5 0.5) (Mat4Expr.scaling 13 8 11), "box")
     , (Mat4Expr.mul (Mat4Expr.translation 0 0.5 (-1)) (Mat4Expr.scaling 4 5 0.1), "wedge")
     , (Mat4Expr.mul (Mat4Expr.translation 0 5.5 1) (Mat4Expr.scaling 6.5 2 5.5), "pyramid")
     , (Mat4Expr.mul (Mat4Expr.translation 0 4.5 0) (Mat4Expr.scaling 2 2 2), "diamond") ]
  ++ (List.range 5).flatMap (fun i =>
    [ (Mat4Expr.translation 6 8.5 (0.5 + (i : Rat) * 2), "wedge")
    , (Mat4Expr.mul (Mat4Expr.translation (-6) 8.5 (-1.5 - (i : Rat) * 2)) (Mat4Expr.rotationY 3.1416), "wedge") ])
  ++ (List.range 5).flatMap (fun i =>
    [ (Mat4Expr.translation (-6) 8.5 (0.5 + (i : Rat) * 2), "wedge")
    , (Mat4Expr.mul (Mat4Expr.translation 6 8.5 (-1.5 - (i : Rat) * 2)) (Mat4Expr.rotationY 3.1416), "wedge") ])
  ++ (List.range 6).flatMap (fun i =>
    [ (Mat4Expr.mul (Mat4Expr.translation 10.5 8.5 (-5.5 + (i : Rat) * 2)) (Mat4Expr.rotationY (-3.1416 / 2)), "wedge")
    , (Mat4Expr.mul (Mat4Expr.translation (-10.5) 8.5 (4.5 - (i : Rat) * 2)) (Mat4Expr.rotationY (3.1416 / 2)), "wedge") ])
  ++ (List.range 6).flatMap (fun i =>
    [ (Mat4Expr.mul (Mat4Expr.translation 0.5 8.5 (-5.5 + (i : Rat) * 2)) (Mat4Expr.rotationY (-3.1416 / 2)), "wedge")
    , (Mat4Expr.mul (Mat4Expr.translation (-0.5) 8.5 (4.5 - (i : Rat) * 2)) (Mat4Expr.rotationY (3.1416 / 2)), "wedge") ])
  ++ [ (Mat4Expr.identity4x4, "grid") ]

/-- All item specs of `BuildRenderItems` in registration order. -/
def itemSpecs : List (Mat4Expr × String) := itemSpecsA ++ itemSpecsB ++ itemSpecsC

/-- Threading of the `objCBIndex++` counter over the registered items:
each item is constructed with the current counter value as its
`ObjCBIndex` (and `NumFramesDirty = gNumFrameResources`, the member
initialiser of `RenderItem`), then the counter is incremented. -/
def assignIndices : Nat → List (Mat4Expr × String) → List RenderItem
  | _, [] => []
  | c, (w, g) :: rest =>
    { World := w, NumFramesDirty := (gNumFrameResources : Int), ObjCBIndex := c,
      geoDrawArg := g } :: assignIndices (c + 1) rest

/-- `mAllRitems` as produced by `BuildRenderItems` (counter starts at 0). -/
def buildRenderItems : List RenderItem := assignIndices 0 itemSpecs

/-- `mOpaqueRitems` as produced by the final loop of `BuildRenderItems`
(lines 1493-1494): every item of `mAllRitems` is appended in order. -/
def buildOpaqueRitems : List RenderItem :=
  buildRenderItems.foldl (fun acc e => acc ++ [e]) []

/-- One freshly constructed frame resource
(`FrameResource(device, 1, objectCount)`): object arena of capacity
`objectCount`, pass arena of capacity 1, `Fence = 0`. -/
def initFrameResource (objectCount : Nat) : FrameResource :=
  { ObjectCB := { capacity := objectCount, store := fun _ => none, failed := false }
    PassCB := { capacity := 1, store := fun _ => none, failed := false }
    Fence := 0 }

/-- The app state right after `Initialize`: three frame resources each of
object capacity `mAllRitems.size()` (`BuildFrameResources`, lines
803-810), `mCurrFrameResourceIndex = 0`, `mCurrentFence = 0`. -/
def initState : AppState :=
  { mFrameResources := fun _ => initFrameResource buildRenderItems.length
    mCurrFrameResourceIndex := 0
    mAllRitems := buildRenderItems
    mCurrentFence := 0 }

/-- One producer-loop transition: a non-blocked `Update` (with some
observed completed fence value and externally supplied pass record), a
`Draw` retirement, or a transform mutation. -/
inductive Step : AppState → AppState → Prop where
  | update (st : AppState) (gpu : Nat) (pass : PassConstants)
      (h : updateWaits st gpu = false) : Step st (produceFrame st pass)
  | draw (st : AppState) : Step st (drawStep st)
  | mutate (st : AppState) (i : Nat) (w : Mat4Expr) : Step st (mutateWorld st i w)

/-- States reachable from the initialised app by producer-loop transitions. -/
inductive Reachable : AppState → Prop where
  | init : Reachable initState
  | step {st st' : AppState} : Reachable st → Step st st' → Reachable st'

/-- Reflexive-transitive closure of `Step`, for relating earlier and later
points of one session. -/
inductive StepStar : AppState → AppState → Prop where
  | refl (st : AppState) : StepStar st st
  | tail {st st' st'' : AppState} : StepStar st st' → Step st' st'' → StepStar st st''

/-! ## Arena lemmas -/

theorem CopyData_capacity {α : Type} (a : UploadBuffer α) (i : Nat) (x : α) :
    (a.CopyData i x).capacity = a.capacity := by
  unfold UploadBuffer.CopyData
  split <;> rfl

theorem CopyData_store_ne {α : Type} (a : UploadBuffer α) (i j : Nat) (x : α)
    (h : j ≠ i) : (a.CopyData i x).store j = a.store j := by
  unfold UploadBuffer.CopyData
  split
  · simp [Function.update, h]
  · rfl

theorem CopyData_store_self {α : Type} (a : UploadBuffer α) (i : Nat) (x : α)
    (h : i < a.capacity) : (a.CopyData i x).store i = some x := by
  unfold UploadBuffer.CopyData
  rw [if_pos h]
  simp [Function.update]

theorem CopyData_failed_of_lt {α : Type} (a : UploadBuffer α) (i : Nat) (x : α)
    (h : i < a.capacity) : (a.CopyData i x).failed = a.failed := by
  unfold UploadBuffer.CopyData
  rw [if_pos h]

theorem writeDirty_capacity (cb : UploadBuffer ObjectConstants) (e : RenderItem) :
    (writeDirty cb e).capacity = cb.capacity := by
  unfold writeDirty
  split
  · exact CopyData_capacity ..
  · rfl

theorem foldl_writeDirty_capacity (items : List RenderItem)
    (cb : UploadBuffer ObjectConstants) :
    (items.foldl writeDirty cb).capacity = cb.capacity := by
  induction items generalizing cb with
  | nil => rfl
  | cons e rest ih => rw [List.foldl_cons, ih, writeDirty_capacity]

theorem foldl_writeDirty_store_untouched (items : List RenderItem)
    (cb : UploadBuffer ObjectConstants) (s : Nat)
    (h : ∀ e ∈ items, 0 < e.NumFramesDirty → e.ObjCBIndex ≠ s) :
    (items.foldl writeDirty cb).store s = cb.store s := by
  induction items generalizing cb with
  | nil => rfl
  | cons e rest ih =>
    rw [List.foldl_cons, ih _ fun e' he' => h e' (List.mem_cons_of_mem e he')]
    unfold writeDirty
    split
    · exact CopyData_store_ne _ _ _ _ fun hs => h e (List.mem_cons_self e rest) (by assumption) hs.symm
    · rfl

theorem foldl_writeDirty_failed (items : List RenderItem)
    (cb : UploadBuffer ObjectConstants)
    (hcap : ∀ e ∈ items, 0 < e.NumFramesDirty → e.ObjCBIndex < cb.capacity) :
    (items.foldl writeDirty cb).failed = cb.failed := by
  induction items generalizing cb with
  | nil => rfl
  | cons e rest ih =>
    rw [List.foldl_cons]
    rw [ih _ fun e' he' hd => by
      rw [writeDirty_capacity]
      exact hcap e' (List.mem_cons_of_mem e he') hd]
    unfold writeDirty
    split
    · exact CopyData_failed_of_lt _ _ _ (hcap e (List.mem_cons_self e rest) (by assumption))
    · rfl

theorem dirtyStep_pos (e : RenderItem) (h : 0 < e.NumFramesDirty) :
    dirtyStep e = { e with NumFramesDirty := e.NumFramesDirty - 1 } := by
  unfold dirtyStep
  rw [if_pos h]

theorem dirtyStep_nonpos (e : RenderItem) (h : ¬0 < e.NumFramesDirty) :
    dirtyStep e = e := by
  unfold dirtyStep
  rw [if_neg h]

theorem writeDirty_pos (cb : UploadBuffer ObjectConstants) (e : RenderItem)
    (h : 0 < e.NumFramesDirty) :
    writeDirty cb e = cb.CopyData e.ObjCBIndex (objRecord e) := by
  unfold writeDirty
  rw [if_pos h]

theorem writeDirty_nonpos (cb : UploadBuffer ObjectConstants) (e : RenderItem)
    (h : ¬0 < e.NumFramesDirty) : writeDirty cb e = cb := by
  unfold writeDirty
  rw [if_neg h]

theorem foldl_writeDirty_store_hit (items : List RenderItem)
    (cb : UploadBuffer ObjectConstants) (i : Nat) (hi : i < items.length)
    (hd : 0 < (items.get ⟨i, hi⟩).NumFramesDirty)
    (hcap : (items.get ⟨i, hi⟩).ObjCBIndex < cb.capacity)
    (hlater : ∀ j (hj : j < items.length), i < j →
      0 < (items.get ⟨j, hj⟩).NumFramesDirty →
      (items.get ⟨j, hj⟩).ObjCBIndex ≠ (items.get ⟨i, hi⟩).ObjCBIndex) :
    (items.foldl writeDirty cb).store (items.get ⟨i, hi⟩).ObjCBIndex
      = some (objRecord (items.get ⟨i, hi⟩)) := by
  induction items generalizing cb i with
  | nil => exact absurd hi (Nat.not_lt_zero i)
  | cons e rest ih =>
    cases i with
    | zero =>
      have hd0 : 0 < e.NumFramesDirty := hd
      have hcap0 : e.ObjCBIndex < cb.capacity := hcap
      show (List.foldl writeDirty cb (e :: rest)).store e.ObjCBIndex = some (objRecord e)
      rw [List.foldl_cons]
      have h2 : ∀ e' ∈ rest, 0 < e'.NumFramesDirty → e'.ObjCBIndex ≠ e.ObjCBIndex := by
        intro e' he' hd'
        obtain ⟨⟨j, hj⟩, rfl⟩ := List.mem_iff_get.mp he'
        exact hlater (j + 1) (Nat.succ_lt_succ hj) (Nat.succ_pos j) hd'
      rw [foldl_writeDirty_store_untouched rest _ _ h2, writeDirty_pos cb e hd0]
      exact CopyData_store_self _ _ _ hcap0
    | succ i' =>
      have hi' : i' < rest.length := Nat.lt_of_succ_lt_succ hi
      show (List.foldl writeDirty cb (e :: rest)).store (rest.get ⟨i', hi'⟩).ObjCBIndex
        = some (objRecord (rest.get ⟨i', hi'⟩))
      rw [List.foldl_cons]
      refine ih (writeDirty cb e) i' hi' hd ?_ ?_
      · rw [writeDirty_capacity]
        exact hcap
      · intro j hj hij hdj
        exact hlater (j + 1) (Nat.succ_lt_succ hj) (Nat.succ_lt_succ hij) hdj

/-! ## `updateObjectCBs` characterisation -/

theorem updateObjectCBs_fst (items : List RenderItem)
    (cb : UploadBuffer ObjectConstants) :
    (updateObjectCBs items cb).1 = items.map dirtyStep := by
  induction items generalizing cb with
  | nil => rfl
  | cons e rest ih =>
    by_cases h : 0 < e.NumFramesDirty
    · simp only [updateObjectCBs, if_pos h, List.map_cons, ih, dirtyStep_pos e h]
    · simp only [updateObjectCBs, if_neg h, List.map_cons, ih, dirtyStep_nonpos e h]

theorem updateObjectCBs_snd (items : List RenderItem)
    (cb : UploadBuffer ObjectConstants) :
    (updateObjectCBs items cb).2 = items.foldl writeDirty cb := by
  induction items generalizing cb with
  | nil => rfl
  | cons e rest ih =>
    by_cases h : 0 < e.NumFramesDirty
    · simp only [updateObjectCBs, if_pos h, List.foldl_cons, ih, writeDirty_pos cb e h]
    · simp only [updateObjectCBs, if_neg h, List.foldl_cons, ih, writeDirty_nonpos cb e h]

theorem dirtyStep_World (e : RenderItem) : (dirtyStep e).World = e.World := by
  unfold dirtyStep
  split <;> rfl

theorem dirtyStep_ObjCBIndex (e : RenderItem) :
    (dirtyStep e).ObjCBIndex = e.ObjCBIndex := by
  unfold dirtyStep
  split <;> rfl

theorem dirtyStep_geoDrawArg (e : RenderItem) :
    (dirtyStep e).geoDrawArg = e.geoDrawArg := by
  unfold dirtyStep
  split <;> rfl

/-! ## `produceFrame`, `drawStep`, `mutateWorld` frame lemmas -/

theorem produceFrame_mAllRitems (st : AppState) (p : PassConstants) :
    (produceFrame st p).mAllRitems = st.mAllRitems.map dirtyStep := by
  unfold produceFrame
  exact updateObjectCBs_fst ..

theorem produceFrame_idx (st : AppState) (p : PassConstants) :
    (produceFrame st p).mCurrFrameResourceIndex = st.mCurrFrameResourceIndex + 1 := rfl

theorem produceFrame_mCurrentFence (st : AppState) (p : PassConstants) :
    (produceFrame st p).mCurrentFence = st.mCurrentFence := rfl

theorem produceFrame_frame_ne (st : AppState) (p : PassConstants) (f : Fin 3)
    (h : f ≠ st.mCurrFrameResourceIndex + 1) :
    (produceFrame st p).mFrameResources f = st.mFrameResources f := by
  unfold produceFrame
  exact Function.update_noteq h _ _

theorem produceFrame_frame_eq (st : AppState) (p : PassConstants) :
    (produceFrame st p).mFrameResources (st.mCurrFrameResourceIndex + 1) =
      { ObjectCB := st.mAllRitems.foldl writeDirty
          (st.mFrameResources (st.mCurrFrameResourceIndex + 1)).ObjectCB
        PassCB := (st.mFrameResources (st.mCurrFrameResourceIndex + 1)).PassCB.CopyData 0 p
        Fence := (st.mFrameResources (st.mCurrFrameResourceIndex + 1)).Fence } := by
  simp only [produceFrame]
  rw [Function.update_same, updateObjectCBs_snd]

theorem produceFrame_Fence (st : AppState) (p : PassConstants) (f : Fin 3) :
    ((produceFrame st p).mFrameResources f).Fence = (st.mFrameResources f).Fence := by
  by_cases h : f = st.mCurrFrameResourceIndex + 1
  · subst h
    rw [produceFrame_frame_eq]
  · rw [produceFrame_frame_ne st p f h]

theorem drawStep_mCurrentFence (st : AppState) :
    (drawStep st).mCurrentFence = st.mCurrentFence + 1 := rfl

theorem drawStep_mAllRitems (st : AppState) :
    (drawStep st).mAllRitems = st.mAllRitems := rfl

theorem drawStep_idx (st : AppState) :
    (drawStep st).mCurrFrameResourceIndex = st.mCurrFrameResourceIndex := rfl

theorem drawStep_frame_ne (st : AppState) (f : Fin 3)
    (h : f ≠ st.mCurrFrameResourceIndex) :
    (drawStep st).mFrameResources f = st.mFrameResources f := by
  unfold drawStep
  exact Function.update_noteq h _ _

theorem drawStep_frame_eq (st : AppState) :
    (drawStep st).mFrameResources st.mCurrFrameResourceIndex =
      { st.mFrameResources st.mCurrFrameResourceIndex with
        Fence := st.mCurrentFence + 1 } := by
  simp only [drawStep]
  rw [Function.update_same]

theorem mutateWorld_frames (st : AppState) (i : Nat) (w : Mat4Expr) (f : Fin 3) :
    (mutateWorld st i w).mFrameResources f = st.mFrameResources f := rfl

theorem mutateWorld_mCurrentFence (st : AppState) (i : Nat) (w : Mat4Expr) :
    (mutateWorld st i w).mCurrentFence = st.mCurrentFence := rfl

theorem mutateItems_length (items : List RenderItem) (i : Nat) (w : Mat4Expr) :
    (mutateItems items i w).length = items.length := by
  induction items generalizing i with
  | nil => rfl
  | cons e rest ih =>
    cases i with
    | zero => rfl
    | succ i' => simp only [mutateItems, List.length_cons, ih i']

/-! ## One produced frame: what it writes and what it preserves -/

theorem produceFrame_length (st : AppState) (p : PassConstants) :
    (produceFrame st p).mAllRitems.length = st.mAllRitems.length := by
  rw [produceFrame_mAllRitems, List.length_map]

theorem produceFrame_get (st : AppState) (p : PassConstants) (j : Nat)
    (hj : j < (produceFrame st p).mAllRitems.length)
    (hj' : j < st.mAllRitems.length) :
    (produceFrame st p).mAllRitems.get ⟨j, hj⟩ = dirtyStep (st.mAllRitems.get ⟨j, hj'⟩) := by
  simp only [List.get_eq_getElem, produceFrame_mAllRitems, List.getElem_map]

theorem produceFrame_cap (st : AppState) (p : PassConstants) (f : Fin 3) :
    ((produceFrame st p).mFrameResources f).ObjectCB.capacity
      = ((st.mFrameResources f).ObjectCB).capacity := by
  by_cases h : f = st.mCurrFrameResourceIndex + 1
  · subst h
    rw [produceFrame_frame_eq]
    exact foldl_writeDirty_capacity ..
  · rw [produceFrame_frame_ne st p f h]

theorem objRecord_dirtyStep (e : RenderItem) : objRecord (dirtyStep e) = objRecord e := by
  unfold objRecord
  rw [dirtyStep_World]

/-- A dirty item's slot in the newly selected frame resource holds its
(transposed) world record right after one produced frame, provided its
slot is in capacity and no other item shares its slot. -/
theorem produceFrame_hits (st : AppState) (p : PassConstants) (i : Nat)
    (hi : i < st.mAllRitems.length)
    (hd : 0 < (st.mAllRitems.get ⟨i, hi⟩).NumFramesDirty)
    (hcap : (st.mAllRitems.get ⟨i, hi⟩).ObjCBIndex
      < ((st.mFrameResources (st.mCurrFrameResourceIndex + 1)).ObjectCB).capacity)
    (hinj : ∀ j (hj : j < st.mAllRitems.length), j ≠ i →
      (st.mAllRitems.get ⟨j, hj⟩).ObjCBIndex ≠ (st.mAllRitems.get ⟨i, hi⟩).ObjCBIndex) :
    (((produceFrame st p).mFrameResources (st.mCurrFrameResourceIndex + 1)).ObjectCB).store
        (st.mAllRitems.get ⟨i, hi⟩).ObjCBIndex
      = some (objRecord (st.mAllRitems.get ⟨i, hi⟩)) := by
  rw [produceFrame_frame_eq]
  exact foldl_writeDirty_store_hit st.mAllRitems _ i hi hd hcap
    (fun j hj hij _ => hinj j hj (Nat.ne_of_gt hij))

/-! ## Fin 3 cycling facts -/

theorem fin3_ne_succ : ∀ a : Fin 3, a ≠ a + 1 := by decide

theorem fin3_ne_succ_succ : ∀ a : Fin 3, a ≠ a + 1 + 1 := by decide

theorem fin3_cover : ∀ c f : Fin 3, f = c + 1 ∨ f = c + 1 + 1 ∨ f = c + 1 + 1 + 1 := by
  decide

theorem produceFrame_inj (st : AppState) (p : PassConstants) (i : Nat)
    (hi : i < st.mAllRitems.length) (hi2 : i < (produceFrame st p).mAllRitems.length)
    (hinj : ∀ j (hj : j < st.mAllRitems.length), j ≠ i →
      (st.mAllRitems.get ⟨j, hj⟩).ObjCBIndex ≠ (st.mAllRitems.get ⟨i, hi⟩).ObjCBIndex) :
    ∀ j (hj : j < (produceFrame st p).mAllRitems.length), j ≠ i →
      ((produceFrame st p).mAllRitems.get ⟨j, hj⟩).ObjCBIndex
        ≠ ((produceFrame st p).mAllRitems.get ⟨i, hi2⟩).ObjCBIndex := by
  intro j hj hji
  have hj' : j < st.mAllRitems.length := by
    rw [produceFrame_length] at hj
    exact hj
  rw [produceFrame_get st p j hj hj', produceFrame_get st p i hi2 hi,
    dirtyStep_ObjCBIndex, dirtyStep_ObjCBIndex]
  exact hinj j hj' hji

theorem dirtyStep_three (e : RenderItem) (h : e.NumFramesDirty = 3) :
    dirtyStep (dirtyStep (dirtyStep e)) = { e with NumFramesDirty := 0 } := by
  obtain ⟨w, d, s, g⟩ := e
  have h' : d = 3 := h
  subst h'
  rfl

/-- Shared core of the dirty-propagation claims: from any state in which
item `i` has `NumFramesDirty = 3` (just created or just mutated), its slot
is unique among the items and within capacity in every frame resource,
three consecutively produced frames leave every one of the three object
arenas holding the item's transposed world matrix at its slot, and leave
the item with `NumFramesDirty = 0` and its world unchanged. -/
theorem converge_after_three (st : AppState) (p1 p2 p3 : PassConstants) (i : Nat)
    (hi : i < st.mAllRitems.length)
    (hd : (st.mAllRitems.get ⟨i, hi⟩).NumFramesDirty = 3)
    (hinj : ∀ j (hj : j < st.mAllRitems.length), j ≠ i →
      (st.mAllRitems.get ⟨j, hj⟩).ObjCBIndex ≠ (st.mAllRitems.get ⟨i, hi⟩).ObjCBIndex)
    (hcap : ∀ f : Fin 3, (st.mAllRitems.get ⟨i, hi⟩).ObjCBIndex
      < ((st.mFrameResources f).ObjectCB).capacity) :
    (∀ f : Fin 3,
      (((produceFrame (produceFrame (produceFrame st p1) p2) p3).mFrameResources f).ObjectCB).store
          (st.mAllRitems.get ⟨i, hi⟩).ObjCBIndex
        = some { World := Mat4Expr.transpose (st.mAllRitems.get ⟨i, hi⟩).World }) ∧
    (produceFrame (produceFrame (produceFrame st p1) p2) p3).mAllRitems.get? i
      = some { st.mAllRitems.get ⟨i, hi⟩ with NumFramesDirty := 0 } := by
  have L1 : i < (produceFrame st p1).mAllRitems.length := by
    rw [produceFrame_length]
    exact hi
  have L2 : i < (produceFrame (produceFrame st p1) p2).mAllRitems.length := by
    rw [produceFrame_length]
    exact L1
  have G1 : (produceFrame st p1).mAllRitems.get ⟨i, L1⟩
      = dirtyStep (st.mAllRitems.get ⟨i, hi⟩) := produceFrame_get st p1 i L1 hi
  have G2 : (produceFrame (produceFrame st p1) p2).mAllRitems.get ⟨i, L2⟩
      = dirtyStep (dirtyStep (st.mAllRitems.get ⟨i, hi⟩)) := by
    rw [produceFrame_get _ p2 i L2 L1, G1]
  have hd0 : 0 < (st.mAllRitems.get ⟨i, hi⟩).NumFramesDirty := by
    rw [hd]
    norm_num
  have hds1 : (dirtyStep (st.mAllRitems.get ⟨i, hi⟩)).NumFramesDirty = 2 := by
    rw [dirtyStep_pos _ hd0]
    show (st.mAllRitems.get ⟨i, hi⟩).NumFramesDirty - 1 = 2
    rw [hd]
    norm_num
  have hd1 : 0 < (dirtyStep (st.mAllRitems.get ⟨i, hi⟩)).NumFramesDirty := by
    rw [hds1]
    norm_num
  have hd2 : 0 < (dirtyStep (dirtyStep (st.mAllRitems.get ⟨i, hi⟩))).NumFramesDirty := by
    rw [dirtyStep_pos _ hd1]
    show (0 : Int) < (dirtyStep (st.mAllRitems.get ⟨i, hi⟩)).NumFramesDirty - 1
    rw [hds1]
    norm_num
  have inj1 := produceFrame_inj st p1 i hi L1 hinj
  have inj2 := produceFrame_inj (produceFrame st p1) p2 i L1 L2 inj1
  have cap1 : ∀ f : Fin 3, (st.mAllRitems.get ⟨i, hi⟩).ObjCBIndex
      < (((produceFrame st p1).mFrameResources f).ObjectCB).capacity := by
    intro f
    rw [produceFrame_cap]
    exact hcap f
  have cap2 : ∀ f : Fin 3, (st.mAllRitems.get ⟨i, hi⟩).ObjCBIndex
      < (((produceFrame (produceFrame st p1) p2).mFrameResources f).ObjectCB).capacity := by
    intro f
    rw [produceFrame_cap]
    exact cap1 f
  have hit1 := produceFrame_hits st p1 i hi hd0 (hcap _) hinj
  have hit2 := produceFrame_hits (produceFrame st p1) p2 i L1
    (by rw [G1]; exact hd1)
    (by rw [G1, dirtyStep_ObjCBIndex]; exact cap1 _) inj1
  rw [G1, dirtyStep_ObjCBIndex, objRecord_dirtyStep, produceFrame_idx] at hit2
  have hit3 := produceFrame_hits (produceFrame (produceFrame st p1) p2) p3 i L2
    (by rw [G2]; exact hd2)
    (by rw [G2, dirtyStep_ObjCBIndex, dirtyStep_ObjCBIndex]; exact cap2 _) inj2
  rw [G2, dirtyStep_ObjCBIndex, dirtyStep_ObjCBIndex, objRecord_dirtyStep,
    objRecord_dirtyStep, produceFrame_idx, produceFrame_idx] at hit3
  have P21 : (produceFrame (produceFrame st p1) p2).mFrameResources
        (st.mCurrFrameResourceIndex + 1)
      = (produceFrame st p1).mFrameResources (st.mCurrFrameResourceIndex + 1) :=
    produceFrame_frame_ne (produceFrame st p1) p2 _
      (by rw [produceFrame_idx]; exact fin3_ne_succ (st.mCurrFrameResourceIndex + 1))
  have P31 : (produceFrame (produceFrame (produceFrame st p1) p2) p3).mFrameResources
        (st.mCurrFrameResourceIndex + 1)
      = (produceFrame (produceFrame st p1) p2).mFrameResources
          (st.mCurrFrameResourceIndex + 1) :=
    produceFrame_frame_ne (produceFrame (produceFrame st p1) p2) p3 _
      (by rw [produceFrame_idx, produceFrame_idx]
          exact fin3_ne_succ_succ (st.mCurrFrameResourceIndex + 1))
  have P32 : (produceFrame (produceFrame (produceFrame st p1) p2) p3).mFrameResources
        (st.mCurrFrameResourceIndex + 1 + 1)
      = (produceFrame (produceFrame st p1) p2).mFrameResources
          (st.mCurrFrameResourceIndex + 1 + 1) :=
    produceFrame_frame_ne (produceFrame (produceFrame st p1) p2) p3 _
      (by rw [produceFrame_idx, produceFrame_idx]
          exact fin3_ne_succ (st.mCurrFrameResourceIndex + 1 + 1))
  constructor
  · intro f
    rcases fin3_cover st.mCurrFrameResourceIndex f with h | h | h
    · rw [h, P31, P21]
      exact hit1
    · rw [h, P32]
      exact hit2
    · rw [h]
      exact hit3
  · rw [produceFrame_mAllRitems, produceFrame_mAllRitems, produceFrame_mAllRitems,
      List.get?_map, List.get?_map, List.get?_map, List.get?_eq_get hi]
    simp only [Option.map_some']
    rw [dirtyStep_three _ hd]

/-! ## `mutateItems` and `setWorldDirty` lemmas -/

theorem setWorldDirty_ObjCBIndex (e : RenderItem) (w : Mat4Expr) :
    (setWorldDirty e w).ObjCBIndex = e.ObjCBIndex := rfl

theorem setWorldDirty_NumFramesDirty (e : RenderItem) (w : Mat4Expr) :
    (setWorldDirty e w).NumFramesDirty = 3 := rfl

theorem setWorldDirty_World (e : RenderItem) (w : Mat4Expr) :
    (setWorldDirty e w).World = w := rfl

theorem mutateItems_get_eq (l : List RenderItem) (i : Nat) (w : Mat4Expr)
    (hi : i < l.length) (hi' : i < (mutateItems l i w).length) :
    (mutateItems l i w).get ⟨i, hi'⟩ = setWorldDirty (l.get ⟨i, hi⟩) w := by
  induction l generalizing i with
  | nil => exact absurd hi (Nat.not_lt_zero i)
  | cons e rest ih =>
    cases i with
    | zero => rfl
    | succ i' => exact ih i' (Nat.lt_of_succ_lt_succ hi) (Nat.lt_of_succ_lt_succ hi')

theorem mutateItems_get_ne (l : List RenderItem) (i : Nat) (w : Mat4Expr) (j : Nat)
    (hj : j < l.length) (hj' : j < (mutateItems l i w).length) (h : j ≠ i) :
    (mutateItems l i w).get ⟨j, hj'⟩ = l.get ⟨j, hj⟩ := by
  induction l generalizing i j with
  | nil => exact absurd hj (Nat.not_lt_zero j)
  | cons e rest ih =>
    cases i with
    | zero =>
      cases j with
      | zero => exact absurd rfl h
      | succ j' => rfl
    | succ i' =>
      cases j with
      | zero => rfl
      | succ j' =>
        exact ih i' j' (Nat.lt_of_succ_lt_succ hj) (Nat.lt_of_succ_lt_succ hj')
          (fun hh => h (congrArg Nat.succ hh))

theorem mutateItems_mem (l : List RenderItem) (i : Nat) (w : Mat4Expr) :
    ∀ e' ∈ mutateItems l i w, ∃ e ∈ l, e' = e ∨ e' = setWorldDirty e w := by
  induction l generalizing i with
  | nil => intro e' h; exact absurd h (List.not_mem_nil e')
  | cons e rest ih =>
    cases i with
    | zero =>
      intro e' h
      rcases List.mem_cons.mp h with h | h
      · exact ⟨e, List.mem_cons_self e rest, Or.inr h⟩
      · exact ⟨e', List.mem_cons_of_mem e h, Or.inl rfl⟩
    | succ i' =>
      intro e' h
      rcases List.mem_cons.mp h with h | h
      · exact ⟨e, List.mem_cons_self e rest, Or.inl h⟩
      · obtain ⟨e₀, he₀, hcase⟩ := ih i' e' h
        exact ⟨e₀, List.mem_cons_of_mem e he₀, hcase⟩

/-! ## Scene-build lemmas -/

theorem assignIndices_length (c : Nat) (l : List (Mat4Expr × String)) :
    (assignIndices c l).length = l.length := by
  induction l generalizing c with
  | nil => rfl
  | cons x rest ih => simp only [assignIndices, List.length_cons, ih]

theorem assignIndices_ObjCBIndex (c : Nat) (l : List (Mat4Expr × String)) (i : Nat)
    (hi : i < (assignIndices c l).length) :
    ((assignIndices c l).get ⟨i, hi⟩).ObjCBIndex = c + i := by
  induction l generalizing c i with
  | nil => exact absurd (hi.trans_eq (assignIndices_length 0 [])) (Nat.not_lt_zero i)
  | cons x rest ih =>
    obtain ⟨w, g⟩ := x
    cases i with
    | zero => rfl
    | succ i' =>
      have := ih (c + 1) i' (Nat.lt_of_succ_lt_succ hi)
      show ((assignIndices (c + 1) rest).get ⟨i', _⟩).ObjCBIndex = c + (i' + 1)
      rw [this]
      omega

theorem assignIndices_NumFramesDirty (c : Nat) (l : List (Mat4Expr × String)) :
    ∀ e ∈ assignIndices c l, e.NumFramesDirty = (gNumFrameResources : Int) := by
  induction l generalizing c with
  | nil => intro e h; exact absurd h (List.not_mem_nil e)
  | cons x rest ih =>
    obtain ⟨w, g⟩ := x
    intro e h
    rcases List.mem_cons.mp h with h | h
    · rw [h]
    · exact ih (c + 1) e h

theorem assignIndices_mem_bound (c : Nat) (l : List (Mat4Expr × String)) :
    ∀ e ∈ assignIndices c l, c ≤ e.ObjCBIndex ∧ e.ObjCBIndex < c + l.length := by
  induction l generalizing c with
  | nil => intro e h; exact absurd h (List.not_mem_nil e)
  | cons x rest ih =>
    obtain ⟨w, g⟩ := x
    intro e h
    rcases List.mem_cons.mp h with h | h
    · rw [h]
      constructor
      · exact Nat.le_refl c
      · simp only [List.length_cons]
        omega
    · obtain ⟨h1, h2⟩ := ih (c + 1) e h
      constructor
      · omega
      · simp only [List.length_cons]
        omega

/-! ## The combined reachability invariant -/

/-- Structural invariant preserved by every producer-loop transition:
slot indices stay below the registry size, every frame resource's arenas
keep their construction-time capacities with the fail-fast flag clear,
every fence value stays at most `mCurrentFence`, and every dirty counter
stays in `[0, gNumFrameResources]`. -/
def StateInv (st : AppState) : Prop :=
  (∀ e ∈ st.mAllRitems, e.ObjCBIndex < st.mAllRitems.length) ∧
  (∀ f : Fin 3,
    ((st.mFrameResources f).ObjectCB).capacity = st.mAllRitems.length ∧
    ((st.mFrameResources f).PassCB).capacity = 1 ∧
    ((st.mFrameResources f).ObjectCB).failed = false ∧
    ((st.mFrameResources f).PassCB).failed = false ∧
    (st.mFrameResources f).Fence ≤ st.mCurrentFence) ∧
  (∀ e ∈ st.mAllRitems, 0 ≤ e.NumFramesDirty ∧ e.NumFramesDirty ≤ 3)

theorem initState_inv : StateInv initState := by
  refine ⟨?_, ?_, ?_⟩
  · intro e he
    have := assignIndices_mem_bound 0 itemSpecs e he
    have hlen : buildRenderItems.length = itemSpecs.length := assignIndices_length 0 itemSpecs
    show e.ObjCBIndex < buildRenderItems.length
    omega
  · intro f
    exact ⟨rfl, rfl, rfl, rfl, Nat.le_refl 0⟩
  · intro e he
    have := assignIndices_NumFramesDirty 0 itemSpecs e he
    rw [this]
    constructor <;> norm_num [gNumFrameResources]

theorem step_preserves_inv {st st' : AppState} (hstep : Step st st')
    (hinv : StateInv st) : StateInv st' := by
  obtain ⟨hslot, hframes, hdirty⟩ := hinv
  cases hstep with
  | update gpu pass hwait =>
    refine ⟨?_, ?_, ?_⟩
    · intro e' he'
      rw [produceFrame_mAllRitems] at he'
      obtain ⟨e, he, rfl⟩ := List.mem_map.mp he'
      rw [dirtyStep_ObjCBIndex, produceFrame_length]
      exact hslot e he
    · intro f
      by_cases hf : f = st.mCurrFrameResourceIndex + 1
      · subst hf
        rw [produceFrame_frame_eq, produceFrame_length, produceFrame_mCurrentFence]
        obtain ⟨hc1, hc2, hf1, hf2, hfe⟩ := hframes (st.mCurrFrameResourceIndex + 1)
        refine ⟨?_, ?_, ?_, ?_, hfe⟩
        · rw [foldl_writeDirty_capacity]
          exact hc1
        · rw [CopyData_capacity]
          exact hc2
        · rw [foldl_writeDirty_failed]
          · exact hf1
          · intro e he _
            rw [hc1]
            exact hslot e he
        · rw [CopyData_failed_of_lt]
          · exact hf2
          · rw [hc2]
            exact Nat.zero_lt_one
      · rw [produceFrame_frame_ne st pass f hf, produceFrame_length,
          produceFrame_mCurrentFence]
        exact hframes f
    · intro e' he'
      rw [produceFrame_mAllRitems] at he'
      obtain ⟨e, he, rfl⟩ := List.mem_map.mp he'
      obtain ⟨h1, h2⟩ := hdirty e he
      unfold dirtyStep
      split <;> constructor <;> dsimp only <;> omega
  | draw =>
    refine ⟨?_, ?_, ?_⟩
    · intro e' he'
      rw [drawStep_mAllRitems] at he'
      rw [drawStep_mAllRitems]
      exact hslot e' he'
    · intro f
      by_cases hf : f = st.mCurrFrameResourceIndex
      · subst hf
        rw [drawStep_frame_eq, drawStep_mAllRitems, drawStep_mCurrentFence]
        obtain ⟨hc1, hc2, hf1, hf2, _⟩ := hframes st.mCurrFrameResourceIndex
        exact ⟨hc1, hc2, hf1, hf2, Nat.le_refl _⟩
      · rw [drawStep_frame_ne st f hf, drawStep_mAllRitems, drawStep_mCurrentFence]
        obtain ⟨hc1, hc2, hf1, hf2, hfe⟩ := hframes f
        exact ⟨hc1, hc2, hf1, hf2, hfe.trans (Nat.le_succ _)⟩
    · intro e' he'
      rw [drawStep_mAllRitems] at he'
      exact hdirty e' he'
  | mutate i w =>
    refine ⟨?_, ?_, ?_⟩
    · intro e' he'
      obtain ⟨e, he, hcase⟩ := mutateItems_mem st.mAllRitems i w e' he'
      show e'.ObjCBIndex < (mutateItems st.mAllRitems i w).length
      rw [mutateItems_length]
      rcases hcase with h | h
      · rw [h]
        exact hslot e he
      · rw [h, setWorldDirty_ObjCBIndex]
        exact hslot e he
    · intro f
      rw [mutateWorld_frames, mutateWorld_mCurrentFence]
      show _ ∧ _ ∧ _ ∧ _ ∧ _
      have hlen : (mutateWorld st i w).mAllRitems.length = st.mAllRitems.length :=
        mutateItems_length st.mAllRitems i w
      rw [hlen]
      exact hframes f
    · intro e' he'
      obtain ⟨e, he, hcase⟩ := mutateItems_mem st.mAllRitems i w e' he'
      rcases hcase with h | h
      · rw [h]
        exact hdirty e he
      · rw [h, setWorldDirty_NumFramesDirty]
        constructor <;> norm_num

theorem reachable_inv {st : AppState} (h : Reachable st) : StateInv st := by
  induction h with
  | init => exact initState_inv
  | step _ hstep ih => exact step_preserves_inv hstep ih

/-! ## Claim theorems -/

theorem updateWaits_eq_false_of_fence_zero (st : AppState) (g : Nat)
    (h : (st.mFrameResources (st.mCurrFrameResourceIndex + 1)).Fence = 0) :
    updateWaits st g = false := by
  simp [updateWaits, h]

/-- C3: the descriptor addressing function `offset(frame, kind, slot)` —
`f*M + s` for object records and `M*3 + f` for pass records — is injective
over the valid `(frame, kind, slot)` domain; the object records of frame
`f` form the contiguous block `[f*M, f*M + M)` and the pass records the
fixed trailing block `[3*M, 3*M + 3)`. -/
theorem heapOffset_injective :
    (∀ (objCount f1 f2 : Nat) (k1 k2 : CbKind),
      validAddr objCount f1 k1 → validAddr objCount f2 k2 →
      (f1, k1) ≠ (f2, k2) →
      heapOffset objCount f1 k1 ≠ heapOffset objCount f2 k2) ∧
    (∀ objCount f s : Nat, f < gNumFrameResources → s < objCount →
      f * objCount ≤ heapOffset objCount f (CbKind.obj s) ∧
      heapOffset objCount f (CbKind.obj s) < f * objCount + objCount) ∧
    (∀ objCount f : Nat, f < gNumFrameResources →
      gNumFrameResources * objCount ≤ heapOffset objCount f CbKind.pass ∧
      heapOffset objCount f CbKind.pass
        < gNumFrameResources * objCount + gNumFrameResources) := by
  refine ⟨?_, ?_, ?_⟩
  · intro M f1 f2 k1 k2 hv1 hv2 hne
    cases k1 with
    | obj s1 =>
      obtain ⟨hf1, hs1⟩ := hv1
      simp only [gNumFrameResources] at hf1
      cases k2 with
      | obj s2 =>
        obtain ⟨hf2, hs2⟩ := hv2
        simp only [gNumFrameResources] at hf2
        have hpair : f1 = f2 → s1 ≠ s2 := by
          intro h1 h2
          exact hne (by rw [h1, h2])
        rcases eq_or_ne f1 f2 with hEq | hNe
        · subst hEq
          have hss : s1 ≠ s2 := hpair rfl
          simp only [heapOffset, publishObjHeapIndex]
          omega
        · simp only [heapOffset, publishObjHeapIndex]
          interval_cases f1 <;> interval_cases f2 <;> omega
      | pass =>
        have hf2 : f2 < 3 := hv2
        simp only [heapOffset, publishObjHeapIndex, publishPassHeapIndex,
          mPassCbvOffset, gNumFrameResources]
        interval_cases f1 <;> omega
    | pass =>
      have hf1 : f1 < 3 := hv1
      cases k2 with
      | obj s2 =>
        obtain ⟨hf2, hs2⟩ := hv2
        simp only [gNumFrameResources] at hf2
        simp only [heapOffset, publishObjHeapIndex, publishPassHeapIndex,
          mPassCbvOffset, gNumFrameResources]
        interval_cases f2 <;> omega
      | pass =>
        have hff : f1 ≠ f2 := by
          intro h
          exact hne (by rw [h])
        simp only [heapOffset, publishPassHeapIndex, mPassCbvOffset,
          gNumFrameResources]
        omega
  · intro M f s _ hs
    simp only [heapOffset, publishObjHeapIndex]
    omega
  · intro M f hf
    simp only [heapOffset, publishPassHeapIndex, mPassCbvOffset,
      gNumFrameResources] at *
    omega

theorem heapOffset_injective_witness :
    validAddr 2 0 (CbKind.obj 1) ∧ validAddr 2 1 CbKind.pass ∧
    heapOffset 2 0 (CbKind.obj 1) ≠ heapOffset 2 1 CbKind.pass :=
  ⟨by decide, by decide,
    heapOffset_injective.1 2 0 1 (CbKind.obj 1) CbKind.pass
      (by decide) (by decide) (by decide)⟩

/-- C4: the descriptor offsets recomputed at publish time
(`BuildConstantBufferViews`) and at bind time (`DrawRenderItems` /
`Draw`) are the identical functions, for both record kinds. -/
theorem publish_bind_offsets_agree :
    (∀ frameIndex objCount slot : Nat,
      publishObjHeapIndex objCount frameIndex slot
        = bindObjCbvIndex frameIndex objCount slot) ∧
    (∀ objCount frameIndex : Nat,
      publishPassHeapIndex objCount frameIndex
        = bindPassCbvIndex (mPassCbvOffset objCount) frameIndex) :=
  ⟨fun _ _ _ => rfl, fun _ _ => rfl⟩

/-- C2: against an observed completed fence value, `Update` blocks exactly
when the newly selected frame resource's `Fence` is nonzero and the
observed completed value is below it; when it proceeds, the wait condition
is false and the produced state is the one that writes that slot's arenas. -/
theorem update_blocks_iff (st : AppState) (gpu : Nat) (pass : PassConstants) :
    (update st gpu pass = none ↔
      ((st.mFrameResources (st.mCurrFrameResourceIndex + 1)).Fence ≠ 0 ∧
        gpu < (st.mFrameResources (st.mCurrFrameResourceIndex + 1)).Fence)) ∧
    (∀ st', update st gpu pass = some st' →
      ((st.mFrameResources (st.mCurrFrameResourceIndex + 1)).Fence = 0 ∨
        (st.mFrameResources (st.mCurrFrameResourceIndex + 1)).Fence ≤ gpu) ∧
      st' = produceFrame st pass) := by
  have hcond : updateWaits st gpu = true ↔
      ((st.mFrameResources (st.mCurrFrameResourceIndex + 1)).Fence ≠ 0 ∧
        gpu < (st.mFrameResources (st.mCurrFrameResourceIndex + 1)).Fence) := by
    simp [updateWaits]
  constructor
  · constructor
    · intro h
      rw [← hcond]
      by_contra hb
      have hw : updateWaits st gpu = false := by
        simpa using hb
      rw [update, hw] at h
      simp at h
    · intro h
      rw [update, if_pos (hcond.mpr h)]
  · intro st' h
    have hw : updateWaits st gpu = false := by
      by_contra hb
      have ht : updateWaits st gpu = true := by
        simpa using hb
      rw [update, if_pos ht] at h
      exact Option.noConfusion h
    have hnot : ¬((st.mFrameResources (st.mCurrFrameResourceIndex + 1)).Fence ≠ 0 ∧
        gpu < (st.mFrameResources (st.mCurrFrameResourceIndex + 1)).Fence) := by
      rw [← hcond, hw]
      simp
    rw [update, hw] at h
    simp only [Bool.false_eq_true, if_false] at h
    refine ⟨?_, (Option.some.inj h).symm⟩
    by_cases hz : (st.mFrameResources (st.mCurrFrameResourceIndex + 1)).Fence = 0
    · exact Or.inl hz
    · right
      push_neg at hnot
      exact hnot hz

/-- C5: from any state whose frame resources all carry `Fence = 0` (the
initialised app), the first three `Update` calls of the produce/draw loop
select slots whose `Fence` is still 0 and never block, whatever completed
fence values the GPU reports. -/
theorem first_three_updates_never_block (st : AppState) (p1 p2 : PassConstants)
    (g1 g2 g3 : Nat) (h0 : ∀ f : Fin 3, (st.mFrameResources f).Fence = 0) :
    ((st.mFrameResources (st.mCurrFrameResourceIndex + 1)).Fence = 0 ∧
      updateWaits st g1 = false) ∧
    (((drawStep (produceFrame st p1)).mFrameResources
        ((drawStep (produceFrame st p1)).mCurrFrameResourceIndex + 1)).Fence = 0 ∧
      updateWaits (drawStep (produceFrame st p1)) g2 = false) ∧
    (((drawStep (produceFrame (drawStep (produceFrame st p1)) p2)).mFrameResources
        ((drawStep (produceFrame (drawStep (produceFrame st p1)) p2)).mCurrFrameResourceIndex
          + 1)).Fence = 0 ∧
      updateWaits (drawStep (produceFrame (drawStep (produceFrame st p1)) p2)) g3
        = false) := by
  have z1 : (st.mFrameResources (st.mCurrFrameResourceIndex + 1)).Fence = 0 := h0 _
  have hz2 : ((drawStep (produceFrame st p1)).mFrameResources
      ((drawStep (produceFrame st p1)).mCurrFrameResourceIndex + 1)).Fence = 0 := by
    show ((drawStep (produceFrame st p1)).mFrameResources
      (st.mCurrFrameResourceIndex + 1 + 1)).Fence = 0
    rw [drawStep_frame_ne (produceFrame st p1) _
      (by rw [produceFrame_idx]; exact (fin3_ne_succ (st.mCurrFrameResourceIndex + 1)).symm)]
    rw [produceFrame_Fence]
    exact h0 _
  have hz3 : ((drawStep (produceFrame (drawStep (produceFrame st p1)) p2)).mFrameResources
      ((drawStep (produceFrame (drawStep (produceFrame st p1)) p2)).mCurrFrameResourceIndex
        + 1)).Fence = 0 := by
    show ((drawStep (produceFrame (drawStep (produceFrame st p1)) p2)).mFrameResources
      (st.mCurrFrameResourceIndex + 1 + 1 + 1)).Fence = 0
    rw [drawStep_frame_ne (produceFrame (drawStep (produceFrame st p1)) p2) _
      (by rw [produceFrame_idx, drawStep_idx, produceFrame_idx]
          exact (fin3_ne_succ (st.mCurrFrameResourceIndex + 1 + 1)).symm)]
    rw [produceFrame_Fence]
    rw [drawStep_frame_ne (produceFrame st p1) _
      (by rw [produceFrame_idx]
          exact (fin3_ne_succ_succ (st.mCurrFrameResourceIndex + 1)).symm)]
    rw [produceFrame_Fence]
    exact h0 _
  exact ⟨⟨z1, updateWaits_eq_false_of_fence_zero st g1 z1⟩,
    ⟨hz2, updateWaits_eq_false_of_fence_zero _ g2 hz2⟩,
    ⟨hz3, updateWaits_eq_false_of_fence_zero _ g3 hz3⟩⟩

/-- C1: from any state in which an item's `NumFramesDirty` equals 3
(just-created item or just-mutated transform), three consecutive `Update`
bodies — each advancing the frame-resource index and running
`UpdateObjectCBs` — leave every one of the three frame resources' object
arenas holding, at the item's `ObjCBIndex`, the transposed (row/column
converted) form of its unchanged `World` matrix, and leave the item's
`NumFramesDirty` at 0. Requires the item's slot to be unique among the
items and within every arena's capacity (both hold for the built scene). -/
theorem dirty_propagation_complete (st : AppState) (p1 p2 p3 : PassConstants)
    (i : Nat) (hi : i < st.mAllRitems.length)
    (hd : (st.mAllRitems.get ⟨i, hi⟩).NumFramesDirty = 3)
    (hinj : ∀ j (hj : j < st.mAllRitems.length), j ≠ i →
      (st.mAllRitems.get ⟨j, hj⟩).ObjCBIndex ≠ (st.mAllRitems.get ⟨i, hi⟩).ObjCBIndex)
    (hcap : ∀ f : Fin 3, (st.mAllRitems.get ⟨i, hi⟩).ObjCBIndex
      < ((st.mFrameResources f).ObjectCB).capacity) :
    (∀ f : Fin 3,
      (((produceFrame (produceFrame (produceFrame st p1) p2) p3).mFrameResources f).ObjectCB).store
          (st.mAllRitems.get ⟨i, hi⟩).ObjCBIndex
        = some { World := Mat4Expr.transpose (st.mAllRitems.get ⟨i, hi⟩).World }) ∧
    (produceFrame (produceFrame (produceFrame st p1) p2) p3).mAllRitems.get? i
      = some { st.mAllRitems.get ⟨i, hi⟩ with NumFramesDirty := 0 } :=
  converge_after_three st p1 p2 p3 i hi hd hinj hcap

/-- A one-item scene used to instantiate the dirty-propagation theorems. -/
def testItem : RenderItem :=
  { World := Mat4Expr.identity4x4
    NumFramesDirty := 3
    ObjCBIndex := 0
    geoDrawArg := "box" }

/-- A one-item app state with freshly constructed frame resources. -/
def testState : AppState :=
  { mFrameResources := fun _ => initFrameResource 1
    mCurrFrameResourceIndex := 0
    mAllRitems := [testItem]
    mCurrentFence := 0 }

/-- An arbitrary externally supplied pass record. -/
def testPass : PassConstants :=
  { View := Mat4Expr.identity4x4, Proj := Mat4Expr.identity4x4 }

theorem dirty_propagation_complete_witness :
    (((produceFrame (produceFrame (produceFrame testState testPass) testPass)
          testPass).mFrameResources 0).ObjectCB).store 0
        = some { World := Mat4Expr.transpose Mat4Expr.identity4x4 } ∧
    (produceFrame (produceFrame (produceFrame testState testPass) testPass)
        testPass).mAllRitems.get? 0
      = some { testItem with NumFramesDirty := 0 } := by
  have h := dirty_propagation_complete testState testPass testPass testPass 0
    Nat.zero_lt_one rfl
    (fun j hj hj0 => absurd (Nat.lt_one_iff.mp hj) hj0)
    (fun _ => Nat.zero_lt_one)
  exact ⟨h.1 0, h.2⟩

/-- C8: mutating a render item's transform while its dirty count is still
positive sets `NumFramesDirty` to exactly 3 (never above) with the new
world stored, and because each subsequent dirty push re-reads the current
`World`, the next three produced frames leave all three object arenas
holding the single latest transposed transform — never an intermediate
value — and the dirty count at 0. -/
theorem remutation_resets_and_converges (st : AppState) (p1 p2 p3 : PassConstants)
    (i : Nat) (w : Mat4Expr) (hi : i < st.mAllRitems.length)
    (hdpos : 0 < (st.mAllRitems.get ⟨i, hi⟩).NumFramesDirty)
    (hinj : ∀ j (hj : j < st.mAllRitems.length), j ≠ i →
      (st.mAllRitems.get ⟨j, hj⟩).ObjCBIndex ≠ (st.mAllRitems.get ⟨i, hi⟩).ObjCBIndex)
    (hcap : ∀ f : Fin 3, (st.mAllRitems.get ⟨i, hi⟩).ObjCBIndex
      < ((st.mFrameResources f).ObjectCB).capacity) :
    (∃ hm : i < (mutateWorld st i w).mAllRitems.length,
      ((mutateWorld st i w).mAllRitems.get ⟨i, hm⟩).NumFramesDirty = 3 ∧
      ((mutateWorld st i w).mAllRitems.get ⟨i, hm⟩).World = w) ∧
    (∀ f : Fin 3,
      (((produceFrame (produceFrame (produceFrame (mutateWorld st i w) p1) p2)
            p3).mFrameResources f).ObjectCB).store
          (st.mAllRitems.get ⟨i, hi⟩).ObjCBIndex
        = some { World := Mat4Expr.transpose w }) ∧
    (produceFrame (produceFrame (produceFrame (mutateWorld st i w) p1) p2)
        p3).mAllRitems.get? i
      = some { setWorldDirty (st.mAllRitems.get ⟨i, hi⟩) w with NumFramesDirty := 0 } := by
  have hm : i < (mutateWorld st i w).mAllRitems.length := by
    show i < (mutateItems st.mAllRitems i w).length
    rw [mutateItems_length]
    exact hi
  have getM : (mutateWorld st i w).mAllRitems.get ⟨i, hm⟩
      = setWorldDirty (st.mAllRitems.get ⟨i, hi⟩) w :=
    mutateItems_get_eq st.mAllRitems i w hi hm
  have hc := converge_after_three (mutateWorld st i w) p1 p2 p3 i hm
    (by rw [getM]; exact setWorldDirty_NumFramesDirty _ w)
    (by
      intro j hj hji
      have hj' : j < st.mAllRitems.length := by
        have := hj
        rw [show (mutateWorld st i w).mAllRitems.length = st.mAllRitems.length from
          mutateItems_length st.mAllRitems i w] at this
        exact this
      show ((mutateItems st.mAllRitems i w).get ⟨j, hj⟩).ObjCBIndex
        ≠ ((mutateWorld st i w).mAllRitems.get ⟨i, hm⟩).ObjCBIndex
      rw [mutateItems_get_ne st.mAllRitems i w j hj' hj hji, getM,
        setWorldDirty_ObjCBIndex]
      exact hinj j hj' hji)
    (by
      intro f
      rw [mutateWorld_frames, getM, setWorldDirty_ObjCBIndex]
      exact hcap f)
  refine ⟨⟨hm, by rw [getM]; exact setWorldDirty_NumFramesDirty _ w,
      by rw [getM]; exact setWorldDirty_World _ w⟩, ?_, ?_⟩
  · intro f
    have := hc.1 f
    rw [getM, setWorldDirty_ObjCBIndex, setWorldDirty_World] at this
    exact this
  · have := hc.2
    rw [getM] at this
    exact this

theorem remutation_resets_and_converges_witness :
    (∃ hm : (0 : Nat) <
        (mutateWorld testState 0 (Mat4Expr.translation 1 2 3)).mAllRitems.length,
      ((mutateWorld testState 0 (Mat4Expr.translation 1 2 3)).mAllRitems.get
          ⟨0, hm⟩).NumFramesDirty = 3 ∧
      ((mutateWorld testState 0 (Mat4Expr.translation 1 2 3)).mAllRitems.get
          ⟨0, hm⟩).World = Mat4Expr.translation 1 2 3) ∧
    (∀ f : Fin 3,
      (((produceFrame (produceFrame (produceFrame
            (mutateWorld testState 0 (Mat4Expr.translation 1 2 3)) testPass)
            testPass) testPass).mFrameResources f).ObjectCB).store 0
        = some { World := Mat4Expr.transpose (Mat4Expr.translation 1 2 3) }) ∧
    (produceFrame (produceFrame (produceFrame
        (mutateWorld testState 0 (Mat4Expr.translation 1 2 3)) testPass)
        testPass) testPass).mAllRitems.get? 0
      = some { setWorldDirty testItem (Mat4Expr.translation 1 2 3) with
          NumFramesDirty := 0 } :=
  remutation_resets_and_converges testState testPass testPass testPass 0
    (Mat4Expr.translation 1 2 3) Nat.zero_lt_one (by norm_num [testState, testItem])
    (fun j hj hj0 => absurd (Nat.lt_one_iff.mp hj) hj0)
    (fun _ => Nat.zero_lt_one)

/-! ## Fence step lemmas -/

theorem step_mCurrentFence_le {st st' : AppState} (h : Step st st') :
    st.mCurrentFence ≤ st'.mCurrentFence := by
  cases h with
  | update gpu pass hwait => exact Nat.le_of_eq (produceFrame_mCurrentFence st pass).symm
  | draw => exact Nat.le_succ _
  | mutate i w => exact Nat.le_refl _

theorem stepStar_mCurrentFence_le {st st' : AppState} (h : StepStar st st') :
    st.mCurrentFence ≤ st'.mCurrentFence := by
  induction h with
  | refl => exact Nat.le_refl _
  | tail _ hstep ih => exact ih.trans (step_mCurrentFence_le hstep)

theorem step_Fence_nonzero {st st' : AppState} (h : Step st st') (f : Fin 3)
    (hnz : (st.mFrameResources f).Fence ≠ 0) :
    (st'.mFrameResources f).Fence ≠ 0 := by
  cases h with
  | update gpu pass hwait =>
    rw [produceFrame_Fence]
    exact hnz
  | draw =>
    by_cases hf : f = st.mCurrFrameResourceIndex
    · subst hf
      rw [drawStep_frame_eq]
      exact Nat.succ_ne_zero _
    · rw [drawStep_frame_ne st f hf]
      exact hnz
  | mutate i w =>
    rw [mutateWorld_frames]
    exact hnz

/-- C7: `Draw` stamps the current frame resource with `++mCurrentFence`:
every stamped value is `mCurrentFence + 1`, hence nonzero and above every
fence currently held by any slot of a reachable state; `mCurrentFence` is
monotone along the producer loop, so the values stamped at successive
retirements are strictly increasing; `Update` and mutation never change a
`Fence`, only `Draw` does, and all fences start at 0 — a slot's fence is 0
exactly until its first retirement. -/
theorem fence_discipline :
    (∀ st : AppState, Reachable st → ∀ f : Fin 3,
      (st.mFrameResources f).Fence ≤ st.mCurrentFence) ∧
    (∀ st : AppState,
      ((drawStep st).mFrameResources st.mCurrFrameResourceIndex).Fence
          = st.mCurrentFence + 1 ∧
      (drawStep st).mCurrentFence = st.mCurrentFence + 1 ∧
      0 < st.mCurrentFence + 1) ∧
    (∀ st st' : AppState, Step st st' → st.mCurrentFence ≤ st'.mCurrentFence) ∧
    (∀ st st' : AppState, Reachable st → StepStar (drawStep st) st' →
      ((drawStep st).mFrameResources st.mCurrFrameResourceIndex).Fence
        < ((drawStep st').mFrameResources st'.mCurrFrameResourceIndex).Fence) ∧
    (∀ (st : AppState) (p : PassConstants) (f : Fin 3),
      ((produceFrame st p).mFrameResources f).Fence = (st.mFrameResources f).Fence) ∧
    (∀ (st : AppState) (i : Nat) (w : Mat4Expr) (f : Fin 3),
      ((mutateWorld st i w).mFrameResources f).Fence = (st.mFrameResources f).Fence) ∧
    (∀ st st' : AppState, Step st st' → ∀ f : Fin 3,
      (st.mFrameResources f).Fence ≠ 0 → (st'.mFrameResources f).Fence ≠ 0) ∧
    (∀ f : Fin 3, (initState.mFrameResources f).Fence = 0) := by
  refine ⟨?_, ?_, ?_, ?_, ?_, ?_, ?_, ?_⟩
  · intro st h f
    exact ((reachable_inv h).2.1 f).2.2.2.2
  · intro st
    refine ⟨?_, rfl, Nat.succ_pos _⟩
    rw [drawStep_frame_eq]
  · intro st st' h
    exact step_mCurrentFence_le h
  · intro st st' _ hstar
    have h1 : ((drawStep st).mFrameResources st.mCurrFrameResourceIndex).Fence
        = st.mCurrentFence + 1 := by
      rw [drawStep_frame_eq]
    have h2 : ((drawStep st').mFrameResources st'.mCurrFrameResourceIndex).Fence
        = st'.mCurrentFence + 1 := by
      rw [drawStep_frame_eq]
    have h3 : (drawStep st).mCurrentFence ≤ st'.mCurrentFence :=
      stepStar_mCurrentFence_le hstar
    rw [drawStep_mCurrentFence] at h3
    omega
  · intro st p f
    exact produceFrame_Fence st p f
  · intro st i w f
    exact mutateWorld_frames st i w f ▸ rfl
  · intro st st' h f
    exact step_Fence_nonzero h f
  · intro f
    rfl

theorem fence_discipline_witness :
    (initState.mFrameResources 0).Fence ≤ initState.mCurrentFence ∧
    ((drawStep initState).mFrameResources
        initState.mCurrFrameResourceIndex).Fence
      < ((drawStep (drawStep initState)).mFrameResources
          (drawStep initState).mCurrFrameResourceIndex).Fence :=
  ⟨fence_discipline.1 initState Reachable.init 0,
    fence_discipline.2.2.2.1 initState (drawStep initState) Reachable.init
      (StepStar.refl (drawStep initState))⟩

/-- C6: in every reachable state the fail-fast flag of every frame
resource's object and pass arena is clear — each arena was constructed
with capacity `mAllRitems.size()` (object) or 1 (pass), every item's
`ObjCBIndex` is below the item count, `UpdateObjectCBs` writes only at
`ObjCBIndex`, and `UpdateMainPassCB` writes only at 0, so the out-of-range
branch of the arena write is never taken. -/
theorem arenas_never_fail (st : AppState) (h : Reachable st) :
    (∀ f : Fin 3, ((st.mFrameResources f).ObjectCB).failed = false ∧
      ((st.mFrameResources f).PassCB).failed = false) ∧
    (∀ f : Fin 3, ((st.mFrameResources f).ObjectCB).capacity = st.mAllRitems.length ∧
      ((st.mFrameResources f).PassCB).capacity = 1) ∧
    (∀ e ∈ st.mAllRitems, ∀ f : Fin 3,
      e.ObjCBIndex < ((st.mFrameResources f).ObjectCB).capacity) := by
  obtain ⟨hslot, hframes, _⟩ := reachable_inv h
  refine ⟨?_, ?_, ?_⟩
  · intro f
    exact ⟨(hframes f).2.2.1, (hframes f).2.2.2.1⟩
  · intro f
    exact ⟨(hframes f).1, (hframes f).2.1⟩
  · intro e he f
    rw [(hframes f).1]
    exact hslot e he

theorem arenas_never_fail_witness :
    ((initState.mFrameResources 0).ObjectCB).failed = false ∧
    ((initState.mFrameResources 0).PassCB).failed = false ∧
    ((initState.mFrameResources 0).PassCB).capacity = 1 :=
  ⟨(arenas_never_fail initState Reachable.init).1 0 |>.1,
    (arenas_never_fail initState Reachable.init).1 0 |>.2,
    (arenas_never_fail initState Reachable.init).2.1 0 |>.2⟩

/-- C9: in every reachable state every render item's `NumFramesDirty` lies
in `[0, 3]`; one `UpdateObjectCBs` pass decrements a positive counter by
exactly 1 and leaves a zero counter unchanged; the member initialiser sets
it to `gNumFrameResources = 3` for every built item. -/
theorem dirty_bounds_invariant :
    (∀ st : AppState, Reachable st → ∀ e ∈ st.mAllRitems,
      0 ≤ e.NumFramesDirty ∧ e.NumFramesDirty ≤ 3) ∧
    (∀ e : RenderItem, 0 < e.NumFramesDirty →
      (dirtyStep e).NumFramesDirty = e.NumFramesDirty - 1) ∧
    (∀ e : RenderItem, e.NumFramesDirty = 0 → dirtyStep e = e) ∧
    (∀ (st : AppState) (p : PassConstants),
      (produceFrame st p).mAllRitems = st.mAllRitems.map dirtyStep) ∧
    (∀ e ∈ buildRenderItems, e.NumFramesDirty = (gNumFrameResources : Int)) := by
  refine ⟨?_, ?_, ?_, ?_, ?_⟩
  · intro st h e he
    exact (reachable_inv h).2.2 e he
  · intro e h
    rw [dirtyStep_pos e h]
  · intro e h
    exact dirtyStep_nonpos e (by omega)
  · intro st p
    exact produceFrame_mAllRitems st p
  · exact assignIndices_NumFramesDirty 0 itemSpecs

/-- The first render item registered by `BuildRenderItems` (the first
tower cylinder). -/
def firstRitem : RenderItem :=
  { World := Mat4Expr.mul (Mat4Expr.translation 8 3 (-13)) (Mat4Expr.scaling 1 1 1)
    NumFramesDirty := 3
    ObjCBIndex := 0
    geoDrawArg := "cylinder" }

theorem dirty_bounds_invariant_witness :
    (0 ≤ firstRitem.NumFramesDirty ∧ firstRitem.NumFramesDirty ≤ 3) ∧
    (dirtyStep testItem).NumFramesDirty = testItem.NumFramesDirty - 1 :=
  ⟨dirty_bounds_invariant.1 initState Reachable.init firstRitem (by decide),
    dirty_bounds_invariant.2.1 testItem (by norm_num [testItem])⟩

theorem foldl_push_eq (l acc : List RenderItem) :
    l.foldl (fun acc e => acc ++ [e]) acc = acc ++ l := by
  induction l generalizing acc with
  | nil => simp
  | cons e rest ih =>
    rw [List.foldl_cons, ih]
    simp

/-- C10: after scene build, `mOpaqueRitems` contains exactly the elements
of `mAllRitems` in the same order; the `ObjCBIndex` values assigned by
`BuildRenderItems` are the consecutive integers `0..M-1`, equal to each
item's registration position; consequently the count used to size and
address the descriptor heap equals the capacity used to construct every
frame resource's object arena. -/
theorem build_registry_facts :
    buildOpaqueRitems = buildRenderItems ∧
    (∀ i (hi : i < buildRenderItems.length),
      (buildRenderItems.get ⟨i, hi⟩).ObjCBIndex = i) ∧
    buildOpaqueRitems.length = buildRenderItems.length ∧
    initState.mAllRitems = buildRenderItems ∧
    (∀ f : Fin 3,
      ((initState.mFrameResources f).ObjectCB).capacity = initState.mAllRitems.length) := by
  have hopq : buildOpaqueRitems = buildRenderItems := by
    unfold buildOpaqueRitems
    rw [foldl_push_eq]
    exact List.nil_append _
  refine ⟨hopq, ?_, by rw [hopq], rfl, fun f => rfl⟩
  intro i hi
  have h := assignIndices_ObjCBIndex 0 itemSpecs i hi
  rw [Nat.zero_add] at h
  exact h

set_option maxRecDepth 20000 in
theorem build_registry_facts_witness :
    buildOpaqueRitems = buildRenderItems ∧
    (buildRenderItems.get ⟨0, by decide⟩).ObjCBIndex = 0 :=
  ⟨build_registry_facts.1, build_registry_facts.2.1 0 (by decide)⟩

theorem update_blocks_iff_witness :
    ((testState.mFrameResources (testState.mCurrFrameResourceIndex + 1)).Fence = 0 ∨
      (testState.mFrameResources (testState.mCurrFrameResourceIndex + 1)).Fence ≤ 0) ∧
    produceFrame testState testPass = produceFrame testState testPass :=
  (update_blocks_iff testState 0 testPass).2 (produceFrame testState testPass) rfl

theorem first_three_updates_never_block_witness :
    ((initState.mFrameResources (initState.mCurrFrameResourceIndex + 1)).Fence = 0 ∧
      updateWaits initState 5 = false) ∧
    (((drawStep (produceFrame initState testPass)).mFrameResources
        ((drawStep (produceFrame initState testPass)).mCurrFrameResourceIndex
          + 1)).Fence = 0 ∧
      updateWaits (drawStep (produceFrame initState testPass)) 0 = false) ∧
    (((drawStep (produceFrame (drawStep (produceFrame initState testPass))
          testPass)).mFrameResources
        ((drawStep (produceFrame (drawStep (produceFrame initState testPass))
            testPass)).mCurrFrameResourceIndex + 1)).Fence = 0 ∧
      updateWaits (drawStep (produceFrame (drawStep (produceFrame initState testPass))
          testPass)) 7 = false) :=
  first_three_updates_never_block initState testPass testPass 5 0 7 (fun _ => rfl)
